import Mathlib

/-!
Verification of the schema-options merge, the blackhole sink configuration,
the OpenTelemetry log adapter and the batch finalization protocol of this
repository, as shallow Lean embeddings of the Rust source.
-/

namespace Schema

/-- Modelled from the spec: `vector_core::config::LogNamespace` is external to
the excerpt; the spec describes it as the global convention "legacy vs
explicit-schema (Vector)". -/
inductive LogNamespace where
  | Legacy
  | Vector
deriving DecidableEq, Repr

/-- Modelled from the spec: the `From<bool>` conversion used by
`use_vector_namespace.into()`; `true` selects the Vector namespace, `false`
the Legacy one. -/
def LogNamespace.ofBool (b : Bool) : LogNamespace :=
  if b then LogNamespace.Vector else LogNamespace.Legacy

/-- Embeds `struct Options` from `src/config/schema.rs` (fields `enabled`,
`validation`, `log_namespace`). -/
structure Options where
  enabled : Bool
  validation : Bool
  log_namespace : Option Bool
deriving DecidableEq, Repr

/-- Embeds `const fn default_enabled` from `src/config/schema.rs`. -/
def default_enabled : Bool := false

/-- Embeds `const fn default_validation` from `src/config/schema.rs`. -/
def default_validation : Bool := false

/-- Embeds `impl Default for Options` from `src/config/schema.rs`. -/
def Options.default : Options :=
  { enabled := default_enabled
    validation := default_validation
    log_namespace := none }

/-- Embeds `Options::log_namespace` from `src/config/schema.rs`: the explicit
setting converted to a namespace, or the Legacy default if unset. Renamed
from the field because Lean does not allow a method and a field to share a
name. -/
def Options.logNamespace (o : Options) : LogNamespace :=
  match o.log_namespace with
  | none => LogNamespace.Legacy
  | some use_vector_namespace => LogNamespace.ofBool use_vector_namespace

/-- The conflict error string pushed by `Options::append` (the `format!`
literal, with the two resolved namespaces interpolated). -/
def conflictMessage (self other : Options) : String :=
  "conflicting values for log_namespace found. Both " ++
    reprStr self.logNamespace ++ " and " ++ reprStr other.logNamespace ++
    " used in the same component"

/-- Embeds `Options::append` from `src/config/schema.rs`. The mutable
receiver and the mutable error vector are passed and returned explicitly. -/
def Options.append (self : Options) (other : Options) (errors : List String) :
    Options × List String :=
  let errors :=
    if self.log_namespace.isSome && other.log_namespace.isSome &&
        self.log_namespace != other.log_namespace then
      errors ++ [conflictMessage self other]
    else errors
  let self :=
    match other.log_namespace with
    | some log_namespace => { self with log_namespace := some log_namespace }
    | none => self
  ({ self with
      enabled := self.enabled || other.enabled
      validation := self.validation || other.validation },
   errors)

/-- The merged value of `Options::append`, with the error list dropped;
used to state order-of-merge properties. -/
def mergeOptions (a b : Options) : Options :=
  (Options.append a b []).fst

/-- Folding `Options::append` over a list of options, threading both the
accumulated value and the accumulated error list, as a caller merging many
component configurations does. -/
def appendFold (a : Options) (errors : List String) (l : List Options) :
    Options × List String :=
  l.foldl (fun s b => Options.append s.fst b s.snd) (a, errors)

/-- The number of conflicting pairs encountered while folding
`Options::append` from `a` over `l`, stated from the spec's description of
error accumulation: one conflict per step whose two sides hold differing
explicit `log_namespace` values. -/
def conflictCount (a : Options) : List Options → Nat
  | [] => 0
  | b :: l =>
      (if a.log_namespace.isSome && b.log_namespace.isSome &&
          a.log_namespace != b.log_namespace then 1 else 0) +
        conflictCount (mergeOptions a b) l

theorem append_fst_eq_merge (a b : Options) (e : List String) :
    (Options.append a b e).fst = mergeOptions a b := rfl

theorem append_snd (a b : Options) (e : List String) :
    (Options.append a b e).snd =
      if a.log_namespace.isSome && b.log_namespace.isSome &&
          a.log_namespace != b.log_namespace then
        e ++ [conflictMessage a b]
      else e := rfl

theorem merge_enabled (a b : Options) :
    (mergeOptions a b).enabled = (a.enabled || b.enabled) := by
  unfold mergeOptions Options.append
  cases b.log_namespace <;> rfl

theorem merge_validation (a b : Options) :
    (mergeOptions a b).validation = (a.validation || b.validation) := by
  unfold mergeOptions Options.append
  cases b.log_namespace <;> rfl

theorem merge_log_namespace (a b : Options) :
    (mergeOptions a b).log_namespace = b.log_namespace.or a.log_namespace := by
  unfold mergeOptions Options.append
  cases b.log_namespace <;> rfl

end Schema

namespace Schema

theorem any_perm {p : Options → Bool} {l l' : List Options} (h : l.Perm l') :
    l.any p = l'.any p := by
  induction h with
  | nil => rfl
  | cons x _ ih => simp [List.any_cons, ih]
  | swap x y l => simp [List.any_cons, Bool.or_left_comm]
  | trans _ _ ih1 ih2 => exact ih1.trans ih2

theorem foldl_merge_enabled (a : Options) (l : List Options) :
    (l.foldl mergeOptions a).enabled = (a.enabled || l.any fun o => o.enabled) := by
  induction l generalizing a with
  | nil => simp
  | cons b l ih => simp [List.foldl_cons, ih, merge_enabled, Bool.or_assoc]

theorem foldl_merge_validation (a : Options) (l : List Options) :
    (l.foldl mergeOptions a).validation =
      (a.validation || l.any fun o => o.validation) := by
  induction l generalizing a with
  | nil => simp
  | cons b l ih => simp [List.foldl_cons, ih, merge_validation, Bool.or_assoc]

end Schema

/-- C1 counterexample: with `a.log_namespace = some false` and
`b.log_namespace = some true`, `Options::append` does not leave
`a.log_namespace` at its pre-call value: the `if let` at schema.rs:38-40
overwrites it with `b`'s value even when a conflict error was pushed. -/
theorem C1_log_namespace_changed_on_conflict :
    ¬ ((Schema.Options.append ⟨false, false, some false⟩ ⟨false, false, some true⟩
        []).fst.log_namespace = (Schema.Options.mk false false (some false)).log_namespace) := by
  decide

/-- C1 (amended): when both sides hold differing explicit `log_namespace`
values, `Options::append` appends exactly one conflict error to the error
list, and sets `a.log_namespace` to `b`'s value (the right side overwrites
despite the conflict), rather than leaving it unchanged. -/
theorem C1_conflict_appends_error (a b : Schema.Options) (e : List String)
    (ha : a.log_namespace.isSome) (hb : b.log_namespace.isSome)
    (hne : a.log_namespace ≠ b.log_namespace) :
    (Schema.Options.append a b e).snd = e ++ [Schema.conflictMessage a b] ∧
    (Schema.Options.append a b e).fst.log_namespace = b.log_namespace := by
  obtain ⟨v, hv⟩ := Option.isSome_iff_exists.mp hb
  constructor
  · rw [Schema.append_snd]
    simp [ha, hb, bne_iff_ne, hne]
  · rw [Schema.append_fst_eq_merge, Schema.merge_log_namespace, hv]
    rfl

/-- Witness for C1 at a concrete conflicting pair. -/
theorem C1_conflict_appends_error_witness :
    (Schema.Options.append ⟨false, false, some false⟩ ⟨false, false, some true⟩
        []).snd = [] ++ [Schema.conflictMessage ⟨false, false, some false⟩
          ⟨false, false, some true⟩] ∧
    (Schema.Options.append ⟨false, false, some false⟩ ⟨false, false, some true⟩
        []).fst.log_namespace = some true :=
  C1_conflict_appends_error _ _ _ (by decide) (by decide) (by decide)

/-- C3: when `a.log_namespace` is unset and `b.log_namespace = some v`,
`Options::append` adopts `some v` into `a` and appends no error. -/
theorem C3_adopts_other_namespace (a b : Schema.Options) (e : List String)
    (v : Bool) (ha : a.log_namespace = none) (hb : b.log_namespace = some v) :
    (Schema.Options.append a b e).fst.log_namespace = some v ∧
    (Schema.Options.append a b e).snd = e := by
  constructor
  · rw [Schema.append_fst_eq_merge, Schema.merge_log_namespace, hb]
    rfl
  · rw [Schema.append_snd]
    simp [ha]

/-- Witness for C3 at a concrete pair. -/
theorem C3_adopts_other_namespace_witness :
    (Schema.Options.append ⟨false, false, none⟩ ⟨true, false, some true⟩
        ["prior"]).fst.log_namespace = some true ∧
    (Schema.Options.append ⟨false, false, none⟩ ⟨true, false, some true⟩
        ["prior"]).snd = ["prior"] :=
  C3_adopts_other_namespace _ _ _ true rfl rfl

/-- C10: merging an `Options` value with itself changes nothing and appends
no error: the conflict test at schema.rs:29-31 fails because the two
`log_namespace` values are equal, re-adopting the same `log_namespace` is a
no-op, and OR-ing each flag with itself leaves it fixed. -/
theorem C10_append_idempotent (a : Schema.Options) (e : List String) :
    Schema.Options.append a a e = (a, e) := by
  cases a with
  | mk en va ln =>
    cases ln <;> simp [Schema.Options.append]

/-- C2: folding `Options::append` over any list, in any order, yields an
`enabled` flag equal to the OR of all inputs' `enabled` flags and a
`validation` flag equal to the OR of all inputs' `validation` flags, and the
merge is commutative and associative on these two fields. -/
theorem C2_enabled_validation_or_merge (a : Schema.Options)
    (l l' : List Schema.Options) (h : l.Perm l') :
    ((l.foldl Schema.mergeOptions a).enabled
        = (a.enabled || l.any fun o => o.enabled)) ∧
    ((l.foldl Schema.mergeOptions a).validation
        = (a.validation || l.any fun o => o.validation)) ∧
    (l.foldl Schema.mergeOptions a).enabled
        = (l'.foldl Schema.mergeOptions a).enabled ∧
    (l.foldl Schema.mergeOptions a).validation
        = (l'.foldl Schema.mergeOptions a).validation ∧
    (∀ b c : Schema.Options,
      (Schema.mergeOptions b c).enabled = (Schema.mergeOptions c b).enabled ∧
      (Schema.mergeOptions b c).validation = (Schema.mergeOptions c b).validation) ∧
    (∀ b c d : Schema.Options,
      (Schema.mergeOptions (Schema.mergeOptions b c) d).enabled
        = (Schema.mergeOptions b (Schema.mergeOptions c d)).enabled ∧
      (Schema.mergeOptions (Schema.mergeOptions b c) d).validation
        = (Schema.mergeOptions b (Schema.mergeOptions c d)).validation) := by
  refine ⟨Schema.foldl_merge_enabled a l, Schema.foldl_merge_validation a l,
    ?_, ?_, ?_, ?_⟩
  · rw [Schema.foldl_merge_enabled, Schema.foldl_merge_enabled,
      Schema.any_perm h]
  · rw [Schema.foldl_merge_validation, Schema.foldl_merge_validation,
      Schema.any_perm h]
  · intro b c
    simp [Schema.merge_enabled, Schema.merge_validation, Bool.or_comm]
  · intro b c d
    simp [Schema.merge_enabled, Schema.merge_validation, Bool.or_assoc]

/-- Witness for C2 at a concrete list and permutation. -/
theorem C2_enabled_validation_or_merge_witness :
    ([Schema.Options.mk true false none].foldl Schema.mergeOptions
        Schema.Options.default).enabled
      = (Schema.Options.default.enabled
          || [Schema.Options.mk true false none].any fun o => o.enabled) :=
  (C2_enabled_validation_or_merge Schema.Options.default
    [⟨true, false, none⟩] [⟨true, false, none⟩] (List.Perm.refl _)).1

theorem appendFold_snd_length (a : Schema.Options) (e : List String)
    (l : List Schema.Options) :
    (Schema.appendFold a e l).snd.length = e.length + Schema.conflictCount a l := by
  induction l generalizing a e with
  | nil => simp [Schema.appendFold, Schema.conflictCount]
  | cons b l ih =>
    show (Schema.appendFold (Schema.Options.append a b e).fst
        (Schema.Options.append a b e).snd l).snd.length = _
    rw [ih, Schema.append_snd, Schema.append_fst_eq_merge, Schema.conflictCount]
    by_cases hc : (a.log_namespace.isSome && b.log_namespace.isSome &&
        a.log_namespace != b.log_namespace) = true
    · simp [hc]
      omega
    · simp [hc]

/-- C4: `Options::append` only pushes onto the error list: the entries
already present are preserved unchanged as a prefix, at most one new entry
is appended per call, and folding a sequence of merges accumulates exactly
one error entry for every conflicting pair encountered along the fold. -/
theorem C4_errors_accumulate (a b : Schema.Options) (e : List String)
    (l : List Schema.Options) :
    (Schema.Options.append a b e).snd.take e.length = e ∧
    ((Schema.Options.append a b e).snd = e ∨
      (Schema.Options.append a b e).snd = e ++ [Schema.conflictMessage a b]) ∧
    (Schema.appendFold a e l).snd.length = e.length + Schema.conflictCount a l := by
  refine ⟨?_, ?_, appendFold_snd_length a e l⟩
  · rw [Schema.append_snd]
    split
    · exact List.take_left e _
    · exact List.take_length e
  · rw [Schema.append_snd]
    split
    · exact Or.inr rfl
    · exact Or.inl rfl

/-- C5: resolving the log namespace of an `Options` value is total: an unset
`log_namespace` reads as the fixed Legacy default, and an explicit setting
`some b` reads as the namespace corresponding to `b`. -/
theorem C5_namespace_resolution_total (o : Schema.Options) :
    (o.log_namespace = none →
      o.logNamespace = Schema.LogNamespace.Legacy) ∧
    (∀ b, o.log_namespace = some b →
      o.logNamespace = Schema.LogNamespace.ofBool b) := by
  constructor
  · intro h
    simp [Schema.Options.logNamespace, h]
  · intro b h
    simp [Schema.Options.logNamespace, h]

/-- Witness for C5 at concrete unset and set values. -/
theorem C5_namespace_resolution_total_witness :
    (Schema.Options.mk false false none).logNamespace
        = Schema.LogNamespace.Legacy ∧
    (Schema.Options.mk false false (some true)).logNamespace
        = Schema.LogNamespace.ofBool true :=
  ⟨(C5_namespace_resolution_total _).1 rfl,
   (C5_namespace_resolution_total _).2 true rfl⟩

namespace Schema

/-- Modelled from the spec: a primitive value appearing in a component's
schema `Options` configuration block (the three recognized fields are
booleans, with `log_namespace` optional, so absent-as-null is also a
value). -/
inductive ConfigValue where
  | boolean (b : Bool)
  | null
deriving DecidableEq, Repr

/-- Modelled from the spec: the external config loader's field-by-field
deserialization of an `Options` block, per the serde attributes
`#[serde(default, deny_unknown_fields)]` on the struct in
`src/config/schema.rs`: a recognized field updates the record being built,
an unrecognized field name is rejected with an error, and fields not
mentioned keep their defaults. -/
def deserializeFields (o : Options) :
    List (String × ConfigValue) → Except String Options
  | [] => Except.ok o
  | (k, v) :: rest =>
    if k = "enabled" then
      match v with
      | ConfigValue.boolean b => deserializeFields { o with enabled := b } rest
      | ConfigValue.null =>
          Except.error "invalid type: null, expected a boolean for field enabled"
    else if k = "validation" then
      match v with
      | ConfigValue.boolean b => deserializeFields { o with validation := b } rest
      | ConfigValue.null =>
          Except.error "invalid type: null, expected a boolean for field validation"
    else if k = "log_namespace" then
      match v with
      | ConfigValue.boolean b =>
          deserializeFields { o with log_namespace := some b } rest
      | ConfigValue.null => deserializeFields { o with log_namespace := none } rest
    else
      Except.error ("unknown field " ++ k)

/-- Modelled from the spec: deserializing a whole `Options` block starts
from the defaulted record (serde `default`) and folds the present fields. -/
def deserializeOptions (kvs : List (String × ConfigValue)) :
    Except String Options :=
  deserializeFields Options.default kvs

theorem deserializeFields_unknown_field (o : Options)
    (kvs : List (String × ConfigValue)) (k : String) (v : ConfigValue)
    (hmem : (k, v) ∈ kvs)
    (hk : ¬(k = "enabled" ∨ k = "validation" ∨ k = "log_namespace")) :
    (deserializeFields o kvs).isOk = false := by
  push_neg at hk
  induction kvs generalizing o with
  | nil => cases hmem
  | cons kv rest ih =>
    obtain ⟨k1, v1⟩ := kv
    rcases List.mem_cons.mp hmem with heq | hmem'
    · cases heq
      simp [deserializeFields, hk.1, hk.2.1, hk.2.2, Except.isOk, Except.toBool]
    · by_cases h1 : k1 = "enabled"
      · subst h1
        cases v1 <;> simp [deserializeFields, Except.isOk, Except.toBool]
        exact ih _ hmem'
      · by_cases h2 : k1 = "validation"
        · subst h2
          cases v1 <;> simp [deserializeFields, h1, Except.isOk, Except.toBool]
          exact ih _ hmem'
        · by_cases h3 : k1 = "log_namespace"
          · subst h3
            cases v1 <;> simp [deserializeFields, h1, h2, Except.isOk, Except.toBool]
            · exact ih _ hmem'
            · exact ih _ hmem'
          · simp [deserializeFields, h1, h2, h3, Except.isOk, Except.toBool]

end Schema

/-- C6: the `Options` record is determined by exactly its three fields
`enabled`, `validation`, `log_namespace`; its default has `enabled = false`,
`validation = false`, `log_namespace` unset; deserializing an empty block
yields the default; and deserialization rejects any block containing an
unrecognized field. -/
theorem C6_three_fields_defaults_deny_unknown :
    Schema.Options.default =
      { enabled := false, validation := false, log_namespace := none } ∧
    (∀ a b : Schema.Options, a.enabled = b.enabled →
      a.validation = b.validation → a.log_namespace = b.log_namespace →
      a = b) ∧
    Schema.deserializeOptions [] = Except.ok Schema.Options.default ∧
    (∀ (kvs : List (String × Schema.ConfigValue)) (k : String)
      (v : Schema.ConfigValue), (k, v) ∈ kvs →
      ¬(k = "enabled" ∨ k = "validation" ∨ k = "log_namespace") →
      (Schema.deserializeOptions kvs).isOk = false) := by
  refine ⟨rfl, ?_, rfl, ?_⟩
  · intro a b h1 h2 h3
    cases a
    cases b
    simp_all
  · intro kvs k v hmem hk
    exact Schema.deserializeFields_unknown_field _ kvs k v hmem hk

/-- Witness for C6: a block with an unrecognized field `bogus` is
rejected. -/
theorem C6_three_fields_defaults_deny_unknown_witness :
    (Schema.deserializeOptions [("enabled", Schema.ConfigValue.boolean true),
      ("bogus", Schema.ConfigValue.null)]).isOk = false :=
  C6_three_fields_defaults_deny_unknown.2.2.2 _ "bogus" Schema.ConfigValue.null
    (by simp) (by simp)

namespace Finalization

/-- Modelled from the spec: `EventStatus`, the terminal outcome
classification for one or more events (§3 of the spec); the finalization
code itself is not part of the excerpt. -/
inductive EventStatus where
  | Delivered
  | Errored
  | Rejected
  | Dropped
deriving DecidableEq, Repr, Fintype

/-- Modelled from the spec: the severity ranking behind worst-outcome
precedence. The spec fixes that Rejected and Errored dominate Delivered and
that the aggregate is the least-successful status; the relative rank of
Dropped is not pinned down by the spec and is placed between Delivered and
Errored here. -/
def EventStatus.severity : EventStatus → Nat
  | EventStatus.Delivered => 0
  | EventStatus.Dropped => 1
  | EventStatus.Errored => 2
  | EventStatus.Rejected => 3

/-- Modelled from the spec: merging one more observed partial outcome into
the batch's running aggregate, keeping the worse of the two. -/
def EventStatus.update (a b : EventStatus) : EventStatus :=
  if a.severity < b.severity then b else a

/-- Modelled from the spec: the aggregate terminal status of a batch whose
first reported outcome is `s` and whose remaining reported outcomes arrive
as `l`, merged report by report. -/
def aggregateStatus (s : EventStatus) (l : List EventStatus) : EventStatus :=
  l.foldl EventStatus.update s

theorem update_right_comm :
    ∀ s x y : EventStatus, (s.update x).update y = (s.update y).update x := by
  decide

theorem update_bounds :
    ∀ t u : EventStatus, t.severity ≤ (t.update u).severity ∧
      u.severity ≤ (t.update u).severity := by
  decide

theorem update_cases : ∀ t u : EventStatus, t.update u = t ∨ t.update u = u := by
  decide

theorem aggregateStatus_perm (s : EventStatus) {l l' : List EventStatus}
    (h : l.Perm l') : aggregateStatus s l = aggregateStatus s l' := by
  induction h generalizing s with
  | nil => rfl
  | cons x _ ih => exact ih (s.update x)
  | swap x y l => exact congrArg (fun z => aggregateStatus z l) (update_right_comm s y x)
  | trans _ _ ih1 ih2 => exact (ih1 s).trans (ih2 s)

theorem severity_le_aggregate (s : EventStatus) (l : List EventStatus) :
    ∀ x ∈ s :: l, x.severity ≤ (aggregateStatus s l).severity := by
  induction l generalizing s with
  | nil =>
    intro x hx
    simp only [List.mem_singleton] at hx
    subst hx
    exact Nat.le_refl _
  | cons b l ih =>
    intro x hx
    have hstep : aggregateStatus s (b :: l) = aggregateStatus (s.update b) l := rfl
    rcases List.mem_cons.mp hx with hxs | hx'
    · subst hxs
      rw [hstep]
      exact Nat.le_trans (update_bounds x b).1
        (ih (x.update b) _ (List.mem_cons_self _ _))
    · rcases List.mem_cons.mp hx' with hxb | hxl
      · subst hxb
        rw [hstep]
        exact Nat.le_trans (update_bounds s x).2
          (ih (s.update x) _ (List.mem_cons_self _ _))
      · rw [hstep]
        exact ih (s.update b) x (List.mem_cons_of_mem _ hxl)

theorem aggregateStatus_mem (s : EventStatus) (l : List EventStatus) :
    aggregateStatus s l ∈ s :: l := by
  induction l generalizing s with
  | nil => exact List.mem_cons_self _ _
  | cons b l ih =>
    have hstep : aggregateStatus s (b :: l) = aggregateStatus (s.update b) l := rfl
    rcases List.mem_cons.mp (ih (s.update b)) with he | hl
    · rcases update_cases s b with h1 | h1
      · rw [hstep, he, h1]
        exact List.mem_cons_self _ _
      · rw [hstep, he, h1]
        exact List.mem_cons_of_mem _ (List.mem_cons_self _ _)
    · rw [hstep]
      exact List.mem_cons_of_mem _ (List.mem_cons_of_mem _ hl)

end Finalization

/-- C8: a batch's aggregate terminal status is independent of the order the
partial outcomes arrive in, is one of the reported statuses, and dominates
every reported status in severity — it is the worst reported status; in
particular a batch split across two outputs reporting Errored and Delivered
(in either order) finalizes as Errored. -/
theorem C8_worst_outcome_aggregation (s : Finalization.EventStatus)
    (l l' : List Finalization.EventStatus) (h : l.Perm l') :
    Finalization.aggregateStatus s l = Finalization.aggregateStatus s l' ∧
    Finalization.aggregateStatus s l ∈ s :: l ∧
    (∀ x ∈ s :: l,
      x.severity ≤ (Finalization.aggregateStatus s l).severity) ∧
    Finalization.aggregateStatus Finalization.EventStatus.Delivered
      [Finalization.EventStatus.Errored] = Finalization.EventStatus.Errored ∧
    Finalization.aggregateStatus Finalization.EventStatus.Errored
      [Finalization.EventStatus.Delivered] = Finalization.EventStatus.Errored :=
  ⟨Finalization.aggregateStatus_perm s h,
   Finalization.aggregateStatus_mem s l,
   Finalization.severity_le_aggregate s l,
   rfl, rfl⟩

/-- Witness for C8: a batch split across two outputs, one Errored and one
Delivered, finalizes as Errored. -/
theorem C8_worst_outcome_aggregation_witness :
    Finalization.aggregateStatus Finalization.EventStatus.Delivered
      [Finalization.EventStatus.Errored] = Finalization.EventStatus.Errored :=
  (C8_worst_outcome_aggregation Finalization.EventStatus.Delivered
    [Finalization.EventStatus.Errored] [Finalization.EventStatus.Errored]
    (List.Perm.refl _)).2.2.2.1

namespace Blackhole

/-- Modelled from the spec: `AcknowledgementsConfig` is external to the
excerpt; the spec describes it as a boolean-or-structured setting saying
whether the component demands delivery confirmation. -/
structure AcknowledgementsConfig where
  enabled : Option Bool
deriving DecidableEq, Repr

/-- Modelled from the spec: the default acknowledgement requirement leaves
the setting unspecified. -/
def AcknowledgementsConfig.default : AcknowledgementsConfig :=
  { enabled := none }

/-- Modelled from the spec: `Input`, the event kinds a sink declares it
accepts (logs, metrics, traces). -/
structure Input where
  logs : Bool
  metrics : Bool
  traces : Bool
deriving DecidableEq, Repr

/-- Modelled from the spec: `Input::all`, accepting every event kind. -/
def Input.all : Input :=
  { logs := true, metrics := true, traces := true }

/-- Embeds `struct BlackholeConfig` from `src/sinks/blackhole/config.rs`
(fields `print_interval_secs`, `rate`, `acknowledgements`). -/
structure BlackholeConfig where
  print_interval_secs : Nat
  rate : Option Nat
  acknowledgements : AcknowledgementsConfig
deriving DecidableEq, Repr

/-- Embeds `const fn default_print_interval_secs` from
`src/sinks/blackhole/config.rs`. -/
def default_print_interval_secs : Nat := 1

/-- Embeds the derived `Default` for `BlackholeConfig`: the derivative
attribute pins `print_interval_secs` to 1, `rate` defaults to `None` and
`acknowledgements` to its own default. -/
def BlackholeConfig.default : BlackholeConfig :=
  { print_interval_secs := default_print_interval_secs
    rate := none
    acknowledgements := AcknowledgementsConfig.default }

/-- Embeds `BlackholeSink::new(self.clone())` as used by `build`; the sink
just captures the configuration. -/
structure BlackholeSink where
  config : BlackholeConfig
deriving DecidableEq, Repr

/-- Modelled from the spec: the constructor of the discard sink, which is an
external collaborator; it records the configuration it was built from. -/
def BlackholeSink.new (c : BlackholeConfig) : BlackholeSink :=
  { config := c }

/-- Modelled from the spec: `VectorSink::Stream` wrapping a built sink. -/
inductive VectorSink where
  | stream (s : BlackholeSink)
deriving DecidableEq, Repr

/-- A healthcheck is a completed outcome here: `future::ok(())` in `build`
is the already-successful check. -/
def Healthcheck : Type := Except String Unit

/-- Embeds `SinkConfig::build` for `BlackholeConfig` from
`src/sinks/blackhole/config.rs`: always returns `Ok` with the wrapped sink
and an immediately successful healthcheck. -/
def BlackholeConfig.build (c : BlackholeConfig) :
    Except String (VectorSink × Healthcheck) :=
  Except.ok (VectorSink.stream (BlackholeSink.new c), Except.ok ())

/-- Embeds `SinkConfig::input` for `BlackholeConfig`: `Input::all()`. -/
def BlackholeConfig.input (_ : BlackholeConfig) : Input :=
  Input.all

/-- Embeds `SinkConfig::sink_type` for `BlackholeConfig`. -/
def BlackholeConfig.sink_type (_ : BlackholeConfig) : String :=
  "blackhole"

/-- Embeds `SinkConfig::acknowledgements` for `BlackholeConfig`, which
returns the configured acknowledgements record. Renamed from the field
because Lean does not allow a method and a field to share a name. -/
def BlackholeConfig.acknowledgementsConfig (c : BlackholeConfig) :
    AcknowledgementsConfig :=
  c.acknowledgements

end Blackhole

/-- C9: the default `BlackholeConfig` has `print_interval_secs = 1` and no
rate limit; for every configuration, `build` returns `Ok` with an
immediately successful healthcheck and the sink built from that
configuration, `input` declares all event kinds accepted, and
`acknowledgements` returns exactly the configured record. -/
theorem C9_blackhole_config_contract (c : Blackhole.BlackholeConfig) :
    Blackhole.BlackholeConfig.default.print_interval_secs = 1 ∧
    Blackhole.BlackholeConfig.default.rate = none ∧
    c.build = Except.ok
      (Blackhole.VectorSink.stream (Blackhole.BlackholeSink.new c),
        Except.ok ()) ∧
    c.input = Blackhole.Input.all ∧
    (c.input.logs ∧ c.input.metrics ∧ c.input.traces) ∧
    c.acknowledgementsConfig = c.acknowledgements :=
  ⟨rfl, rfl, rfl, rfl, ⟨rfl, rfl, rfl⟩, rfl⟩

namespace Otel

/-- Modelled from the spec: the canonical tagged-union `Value` of the event
model (§3): Null, Boolean, Integer, Float is unused here, String, Timestamp
(an absolute instant in nanoseconds since epoch), Array and string-keyed
Object. -/
inductive Value where
  | null
  | boolean (b : Bool)
  | integer (i : Int)
  | str (s : String)
  | timestamp (nanos : Int)
  | array (items : List Value)
  | object (fields : List (String × Value))

/-- Modelled from the spec: a canonical log event is an Object-rooted
Value. -/
abbrev LogEvent := Value

/-- Byte-wise lexicographic comparison on key characters, the ordering of
the string-keyed object mapping. -/
def strLtB : List Char → List Char → Bool
  | [], [] => false
  | [], _ :: _ => true
  | _ :: _, [] => false
  | c :: cs, d :: ds =>
    if c.toNat < d.toNat then true
    else if d.toNat < c.toNat then false
    else strLtB cs ds

def keyLt (a b : String) : Bool :=
  strLtB a.data b.data

/-- Modelled from the spec: inserting one field into the key-ordered,
key-unique object mapping (`BTreeMap` semantics: keys unique, insertion
order irrelevant). -/
def insertField (k : String) (v : Value) :
    List (String × Value) → List (String × Value)
  | [] => [(k, v)]
  | (k2, v2) :: rest =>
    if keyLt k k2 then (k, v) :: (k2, v2) :: rest
    else if k = k2 then (k, v) :: rest
    else (k2, v2) :: insertField k v rest

/-- Builds an Object value from a field list via ordered insertion. -/
def objectOf (fields : List (String × Value)) : Value :=
  Value.object (fields.foldl (fun acc kv => insertField kv.fst kv.snd acc) [])

/-- The lowercase hexadecimal digit for a nibble. -/
def hexDigit (n : Nat) : Char :=
  match n with
  | 0 => '0' | 1 => '1' | 2 => '2' | 3 => '3'
  | 4 => '4' | 5 => '5' | 6 => '6' | 7 => '7'
  | 8 => '8' | 9 => '9' | 10 => 'a' | 11 => 'b'
  | 12 => 'c' | 13 => 'd' | 14 => 'e' | _ => 'f'

/-- Modelled from the spec: the lowercase hexadecimal string encoding of a
byte sequence, two digits per byte, used for `trace_id` and `span_id`. -/
def hexEncode (bytes : List Nat) : String :=
  String.mk (bytes.foldr (fun b acc => hexDigit (b / 16) :: hexDigit (b % 16) :: acc) [])

/-- Modelled from the spec: a decoded protocol attribute value; only the
variants exercised by the log mapping are carried. -/
inductive AnyValue where
  | stringValue (s : String)
  | boolValue (b : Bool)
  | intValue (i : Int)

/-- Modelled from the spec: one decoded protocol attribute. -/
structure KeyValue where
  key : String
  value : Option AnyValue

/-- Modelled from the spec: the resource block of a resource group, with its
attributes. -/
structure Resource where
  attributes : List KeyValue
  dropped_attributes_count : Nat

/-- Modelled from the spec: one decoded log record with the fields
enumerated in §4.5. `trace_id` and `span_id` arrive as raw bytes. -/
structure LogRecord where
  time_unix_nano : Nat
  observed_time_unix_nano : Nat
  severity_number : Int
  severity_text : String
  body : Option AnyValue
  attributes : List KeyValue
  dropped_attributes_count : Nat
  flags : Nat
  trace_id : List Nat
  span_id : List Nat

/-- Modelled from the spec: a scope group of log records. -/
structure ScopeLogs where
  log_records : List LogRecord
  schema_url : String

/-- Modelled from the spec: a resource group with its scope groups. -/
structure ResourceLogs where
  resource : Option Resource
  scope_logs : List ScopeLogs
  schema_url : String

/-- Modelled from the spec: one export request, a sequence of resource
groups. -/
structure ExportLogsServiceRequest where
  resource_logs : List ResourceLogs

/-- Modelled from the spec: decoding one protocol attribute value into a
canonical Value. -/
def anyValueToValue : AnyValue → Value
  | AnyValue.stringValue s => Value.str s
  | AnyValue.boolValue b => Value.boolean b
  | AnyValue.intValue i => Value.integer i

/-- Modelled from the spec: decoded attributes populate an object field;
attributes without a value are skipped. -/
def attributesToValue (attrs : List KeyValue) : Value :=
  objectOf (attrs.filterMap fun kv =>
    kv.value.map fun av => (kv.key, anyValueToValue av))

/-- Modelled from the spec: the §4.5 field mapping of one log record (with
its enclosing resource) into one canonical LogEvent: resource attributes to
`resources`, record attributes to `attributes`, a textual body to
`message`, `trace_id`/`span_id` re-encoded as lowercase hex strings, the
numeric fields through unchanged, and the two time fields as absolute
instants. -/
def adaptRecord (resource : Option Resource) (r : LogRecord) : LogEvent :=
  objectOf (
    (match resource with
      | some res => [("resources", attributesToValue res.attributes)]
      | none => []) ++
    [("attributes", attributesToValue r.attributes)] ++
    (match r.body with
      | some (AnyValue.stringValue s) => [("message", Value.str s)]
      | _ => []) ++
    [("trace_id", Value.str (hexEncode r.trace_id)),
     ("span_id", Value.str (hexEncode r.span_id)),
     ("severity_number", Value.integer r.severity_number),
     ("severity_text", Value.str r.severity_text),
     ("flags", Value.integer (Int.ofNat r.flags)),
     ("dropped_attributes_count", Value.integer (Int.ofNat r.dropped_attributes_count)),
     ("timestamp", Value.timestamp (Int.ofNat r.time_unix_nano)),
     ("observed_timestamp", Value.timestamp (Int.ofNat r.observed_time_unix_nano))])

/-- Modelled from the spec: the protocol adapter turns every log record of
every scope group of every resource group into one canonical LogEvent. -/
def adaptLogs (req : ExportLogsServiceRequest) : List LogEvent :=
  req.resource_logs.flatMap fun rl =>
    rl.scope_logs.flatMap fun sl =>
      sl.log_records.map (adaptRecord rl.resource)

/-- The export request of the `receive_grpc_logs` test in
`src/sources/opentelemetry/tests.rs`: one resource group with attribute
`res_key=res_val`, one scope group, one log record with the documented
field values; the trace and span ids are the byte sequences whose hex
encodings are the strings in the test. -/
def testRequest : ExportLogsServiceRequest :=
  { resource_logs := [
      { resource := some
          { attributes := [
              { key := "res_key"
                value := some (AnyValue.stringValue "res_val") }]
            dropped_attributes_count := 0 }
        scope_logs := [
          { log_records := [
              { time_unix_nano := 1
                observed_time_unix_nano := 2
                severity_number := 9
                severity_text := "info"
                body := some (AnyValue.stringValue "log body")
                attributes := [
                  { key := "attr_key"
                    value := some (AnyValue.stringValue "attr_val") }]
                dropped_attributes_count := 3
                flags := 4
                trace_id := [0x4a, 0xc5, 0x2a, 0xad, 0xf3, 0x21, 0xc2, 0xe5,
                             0x31, 0xdb, 0x00, 0x5d, 0xf0, 0x87, 0x92, 0xf5]
                span_id := [0x0b, 0x9e, 0x4b, 0xda, 0x2a, 0x55, 0x53, 0x0d] }]
            schema_url := "v1" }]
        schema_url := "v1" }] }

/-- The event the `receive_grpc_logs` test expects, with the object fields
in key order as the `BTreeMap` holds them. -/
def expectedEvent : LogEvent :=
  Value.object [
    ("attributes", Value.object [("attr_key", Value.str "attr_val")]),
    ("dropped_attributes_count", Value.integer 3),
    ("flags", Value.integer 4),
    ("message", Value.str "log body"),
    ("observed_timestamp", Value.timestamp 2),
    ("resources", Value.object [("res_key", Value.str "res_val")]),
    ("severity_number", Value.integer 9),
    ("severity_text", Value.str "info"),
    ("span_id", Value.str "0b9e4bda2a55530d"),
    ("timestamp", Value.timestamp 1),
    ("trace_id", Value.str "4ac52aadf321c2e531db005df08792f5")]

end Otel

/-- C7: on the export request of the `receive_grpc_logs` test, the protocol
adapter produces exactly one LogEvent, whose fields are exactly the
expected ones: the attribute objects, the `log body` message, the hex-string
trace and span ids, severity 9 / `info`, flags 4, dropped count 3, and the
1ns and 2ns instants. -/
theorem C7_grpc_logs_end_to_end :
    Otel.adaptLogs Otel.testRequest = [Otel.expectedEvent] := by
  rfl
